import Mathlib

/-!
Shallow embedding of the execution-control and memory-virtualization interface
declared in `src/libs/include/unicorn/unicorn.h` (the only source file of the
repository), together with models of the operations whose bodies are not part
of the repository, built from the specification's description of their
behaviour.  C machine integers are modelled as `Nat`; the enumerations keep
their C names and numeric values.
-/

namespace Unicorn

/-- The error enumeration `uc_err` from unicorn.h lines 107-128.
The constructors appear in the source order, so the C value of each is its
position, starting at `UC_ERR_OK = 0`. -/
inductive uc_err where
  | UC_ERR_OK
  | UC_ERR_NOMEM
  | UC_ERR_ARCH
  | UC_ERR_HANDLE
  | UC_ERR_MODE
  | UC_ERR_VERSION
  | UC_ERR_READ_UNMAPPED
  | UC_ERR_WRITE_UNMAPPED
  | UC_ERR_FETCH_UNMAPPED
  | UC_ERR_HOOK
  | UC_ERR_INSN_INVALID
  | UC_ERR_MAP
  | UC_ERR_WRITE_PROT
  | UC_ERR_READ_PROT
  | UC_ERR_FETCH_PROT
  | UC_ERR_ARG
  | UC_ERR_READ_UNALIGNED
  | UC_ERR_WRITE_UNALIGNED
  | UC_ERR_FETCH_UNALIGNED
  | UC_ERR_HOOK_EXIST
  deriving DecidableEq, Repr, Fintype

/-- The numeric value of each `uc_err` member: the C enum assigns consecutive
values starting from `UC_ERR_OK = 0` (unicorn.h line 108). -/
def uc_err.toNat : uc_err → Nat
  | .UC_ERR_OK => 0
  | .UC_ERR_NOMEM => 1
  | .UC_ERR_ARCH => 2
  | .UC_ERR_HANDLE => 3
  | .UC_ERR_MODE => 4
  | .UC_ERR_VERSION => 5
  | .UC_ERR_READ_UNMAPPED => 6
  | .UC_ERR_WRITE_UNMAPPED => 7
  | .UC_ERR_FETCH_UNMAPPED => 8
  | .UC_ERR_HOOK => 9
  | .UC_ERR_INSN_INVALID => 10
  | .UC_ERR_MAP => 11
  | .UC_ERR_WRITE_PROT => 12
  | .UC_ERR_READ_PROT => 13
  | .UC_ERR_FETCH_PROT => 14
  | .UC_ERR_ARG => 15
  | .UC_ERR_READ_UNALIGNED => 16
  | .UC_ERR_WRITE_UNALIGNED => 17
  | .UC_ERR_FETCH_UNALIGNED => 18
  | .UC_ERR_HOOK_EXIST => 19

/-- The 19 kinds of failure named by the specification's error taxonomy
(spec section 7), one constructor per kind, in the spec's order. -/
inductive ErrKind where
  | outOfMemory
  | unsupportedArchitecture
  | invalidHandle
  | unsupportedMode
  | versionMismatch
  | readUnmapped
  | writeUnmapped
  | fetchUnmapped
  | invalidHookType
  | invalidInstruction
  | invalidMapping
  | writeProtected
  | readProtected
  | fetchProtected
  | invalidArgument
  | readUnaligned
  | writeUnaligned
  | fetchUnaligned
  | duplicateHook
  deriving DecidableEq, Repr, Fintype

/-- The failure kind each `uc_err` code stands for, read off the per-member
comments of unicorn.h lines 108-127; the success value `UC_ERR_OK` stands for
no failure at all. -/
def uc_err.kindOf : uc_err → Option ErrKind
  | .UC_ERR_OK => none
  | .UC_ERR_NOMEM => some .outOfMemory
  | .UC_ERR_ARCH => some .unsupportedArchitecture
  | .UC_ERR_HANDLE => some .invalidHandle
  | .UC_ERR_MODE => some .unsupportedMode
  | .UC_ERR_VERSION => some .versionMismatch
  | .UC_ERR_READ_UNMAPPED => some .readUnmapped
  | .UC_ERR_WRITE_UNMAPPED => some .writeUnmapped
  | .UC_ERR_FETCH_UNMAPPED => some .fetchUnmapped
  | .UC_ERR_HOOK => some .invalidHookType
  | .UC_ERR_INSN_INVALID => some .invalidInstruction
  | .UC_ERR_MAP => some .invalidMapping
  | .UC_ERR_WRITE_PROT => some .writeProtected
  | .UC_ERR_READ_PROT => some .readProtected
  | .UC_ERR_FETCH_PROT => some .fetchProtected
  | .UC_ERR_ARG => some .invalidArgument
  | .UC_ERR_READ_UNALIGNED => some .readUnaligned
  | .UC_ERR_WRITE_UNALIGNED => some .writeUnaligned
  | .UC_ERR_FETCH_UNALIGNED => some .fetchUnaligned
  | .UC_ERR_HOOK_EXIST => some .duplicateHook

/-! Hook type constants, unicorn.h lines 168-182 (each `1 << k` in the C
source), and the aggregate masks of lines 184-195, which the source builds
with arithmetic `+`. -/

def UC_HOOK_INTR : Nat := 1 <<< 0
def UC_HOOK_INSN : Nat := 1 <<< 1
def UC_HOOK_CODE : Nat := 1 <<< 2
def UC_HOOK_BLOCK : Nat := 1 <<< 3
def UC_HOOK_MEM_READ_UNMAPPED : Nat := 1 <<< 4
def UC_HOOK_MEM_WRITE_UNMAPPED : Nat := 1 <<< 5
def UC_HOOK_MEM_FETCH_UNMAPPED : Nat := 1 <<< 6
def UC_HOOK_MEM_READ_PROT : Nat := 1 <<< 7
def UC_HOOK_MEM_WRITE_PROT : Nat := 1 <<< 8
def UC_HOOK_MEM_FETCH_PROT : Nat := 1 <<< 9
def UC_HOOK_MEM_READ : Nat := 1 <<< 10
def UC_HOOK_MEM_WRITE : Nat := 1 <<< 11
def UC_HOOK_MEM_FETCH : Nat := 1 <<< 12

def UC_HOOK_MEM_UNMAPPED : Nat :=
  UC_HOOK_MEM_READ_UNMAPPED + UC_HOOK_MEM_WRITE_UNMAPPED + UC_HOOK_MEM_FETCH_UNMAPPED
def UC_HOOK_MEM_PROT : Nat :=
  UC_HOOK_MEM_READ_PROT + UC_HOOK_MEM_WRITE_PROT + UC_HOOK_MEM_FETCH_PROT
def UC_HOOK_MEM_READ_INVALID : Nat :=
  UC_HOOK_MEM_READ_PROT + UC_HOOK_MEM_READ_UNMAPPED
def UC_HOOK_MEM_WRITE_INVALID : Nat :=
  UC_HOOK_MEM_WRITE_PROT + UC_HOOK_MEM_WRITE_UNMAPPED
def UC_HOOK_MEM_FETCH_INVALID : Nat :=
  UC_HOOK_MEM_FETCH_PROT + UC_HOOK_MEM_FETCH_UNMAPPED
def UC_HOOK_MEM_INVALID : Nat :=
  UC_HOOK_MEM_UNMAPPED + UC_HOOK_MEM_PROT

/-! Mode constants, unicorn.h lines 86-103. -/

def UC_MODE_LITTLE_ENDIAN : Nat := 0
def UC_MODE_ARM : Nat := 0
def UC_MODE_16 : Nat := 1 <<< 1
def UC_MODE_32 : Nat := 1 <<< 2
def UC_MODE_64 : Nat := 1 <<< 3
def UC_MODE_THUMB : Nat := 1 <<< 4
def UC_MODE_MCLASS : Nat := 1 <<< 5
def UC_MODE_V8 : Nat := 1 <<< 6
def UC_MODE_MICRO : Nat := 1 <<< 4
def UC_MODE_MIPS3 : Nat := 1 <<< 5
def UC_MODE_MIPS32R6 : Nat := 1 <<< 6
def UC_MODE_V9 : Nat := 1 <<< 4
def UC_MODE_QPX : Nat := 1 <<< 4
def UC_MODE_BIG_ENDIAN : Nat := 1 <<< 30
def UC_MODE_MIPS32 : Nat := UC_MODE_32
def UC_MODE_MIPS64 : Nat := UC_MODE_64

/-- The names declared by the `uc_mode` enumeration, one constructor per
enumerator of unicorn.h lines 86-103. -/
inductive ModeName where
  | UC_MODE_LITTLE_ENDIAN
  | UC_MODE_ARM
  | UC_MODE_16
  | UC_MODE_32
  | UC_MODE_64
  | UC_MODE_THUMB
  | UC_MODE_MCLASS
  | UC_MODE_V8
  | UC_MODE_MICRO
  | UC_MODE_MIPS3
  | UC_MODE_MIPS32R6
  | UC_MODE_V9
  | UC_MODE_QPX
  | UC_MODE_BIG_ENDIAN
  | UC_MODE_MIPS32
  | UC_MODE_MIPS64
  deriving DecidableEq, Repr, Fintype

/-- The numeric value the `uc_mode` enumeration gives each of its names. -/
def ModeName.val : ModeName → Nat
  | .UC_MODE_LITTLE_ENDIAN => Unicorn.UC_MODE_LITTLE_ENDIAN
  | .UC_MODE_ARM => Unicorn.UC_MODE_ARM
  | .UC_MODE_16 => Unicorn.UC_MODE_16
  | .UC_MODE_32 => Unicorn.UC_MODE_32
  | .UC_MODE_64 => Unicorn.UC_MODE_64
  | .UC_MODE_THUMB => Unicorn.UC_MODE_THUMB
  | .UC_MODE_MCLASS => Unicorn.UC_MODE_MCLASS
  | .UC_MODE_V8 => Unicorn.UC_MODE_V8
  | .UC_MODE_MICRO => Unicorn.UC_MODE_MICRO
  | .UC_MODE_MIPS3 => Unicorn.UC_MODE_MIPS3
  | .UC_MODE_MIPS32R6 => Unicorn.UC_MODE_MIPS32R6
  | .UC_MODE_V9 => Unicorn.UC_MODE_V9
  | .UC_MODE_QPX => Unicorn.UC_MODE_QPX
  | .UC_MODE_BIG_ENDIAN => Unicorn.UC_MODE_BIG_ENDIAN
  | .UC_MODE_MIPS32 => Unicorn.UC_MODE_MIPS32
  | .UC_MODE_MIPS64 => Unicorn.UC_MODE_MIPS64

/-! Version constants and macro, unicorn.h lines 59-65. -/

def UC_API_MAJOR : Nat := 0
def UC_API_MINOR : Nat := 9

/-- `UC_MAKE_VERSION(major, minor)` is `((major << 8) + minor)`
(unicorn.h line 65). -/
def UC_MAKE_VERSION (major minor : Nat) : Nat := (major <<< 8) + minor

/-- Modelled from the spec: the body of `uc_version` is not in src (unicorn.h
lines 235-236 only declare it); its doc comment and spec section 6 say the
query reports the header's major and minor numbers in the combined encoding
that `UC_MAKE_VERSION` produces. -/
def uc_version : Nat := UC_MAKE_VERSION UC_API_MAJOR UC_API_MINOR

/-! Memory permissions, unicorn.h lines 421-427. -/

def UC_PROT_NONE : Nat := 0
def UC_PROT_READ : Nat := 1
def UC_PROT_WRITE : Nat := 2
def UC_PROT_EXEC : Nat := 4
def UC_PROT_ALL : Nat := 7

/-- Page size: the doc comment of `uc_mem_map` (unicorn.h lines 429-444)
requires the address and size to be aligned to 4KB. -/
def pageSize : Nat := 4096

/-- A mapped memory region, spec section 3: base address, length, and
permission bits drawn from `uc_prot`. -/
structure MemRegion where
  base : Nat
  size : Nat
  perms : Nat
  deriving DecidableEq, Repr

/-- Whether the half-open byte range `[address, address + size)` intersects
the range covered by region `r`. -/
def MemRegion.overlaps (r : MemRegion) (address size : Nat) : Bool :=
  address < r.base + r.size && r.base < address + size

/-- Modelled from the spec: the body of `uc_mem_map` is not in src (unicorn.h
lines 445-446 only declare it).  Its doc comment requires the address to be
4KB-aligned, the size a multiple of 4KB, and the permissions a combination of
`UC_PROT_READ | UC_PROT_WRITE | UC_PROT_EXEC`, each violation returning
`UC_ERR_ARG`; spec section 4.1 adds that the length must be positive, that a
range intersecting an existing region fails with the map-conflict error
(`UC_ERR_MAP`, the `uc_mem_map` error of the taxonomy), that an allocation
failure of the backing storage returns out-of-memory, and that on success the
new region is inserted.  `allocOk` stands for whether the backing storage
allocation succeeds. -/
def uc_mem_map (regions : List MemRegion) (address size perms : Nat)
    (allocOk : Bool) : Except uc_err (List MemRegion) :=
  if address % pageSize ≠ 0 then .error .UC_ERR_ARG
  else if size = 0 then .error .UC_ERR_ARG
  else if size % pageSize ≠ 0 then .error .UC_ERR_ARG
  else if perms &&& UC_PROT_ALL ≠ perms then .error .UC_ERR_ARG
  else if regions.any (fun r => r.overlaps address size) then .error .UC_ERR_MAP
  else if allocOk then .ok ({ base := address, size := size, perms := perms } :: regions)
  else .error .UC_ERR_NOMEM

/-! Memory-event hook dispatch (spec sections 4.1 and 4.2). -/

/-- The three kinds of memory access checked during emulation. -/
inductive MemAccess where
  | read
  | write
  | fetch
  deriving DecidableEq, Repr

/-- The two ways an emulated access can fail the address-space check:
the address is unmapped, or mapped but lacking the required permission. -/
inductive MemFailKind where
  | unmapped
  | prot
  deriving DecidableEq, Repr

/-- The `uc_hook_type` bit a failing access of the given shape raises,
per unicorn.h lines 173-178. -/
def eventHookBit : MemAccess → MemFailKind → Nat
  | .read, .unmapped => UC_HOOK_MEM_READ_UNMAPPED
  | .write, .unmapped => UC_HOOK_MEM_WRITE_UNMAPPED
  | .fetch, .unmapped => UC_HOOK_MEM_FETCH_UNMAPPED
  | .read, .prot => UC_HOOK_MEM_READ_PROT
  | .write, .prot => UC_HOOK_MEM_WRITE_PROT
  | .fetch, .prot => UC_HOOK_MEM_FETCH_PROT

/-- The `uc_err` code the engine records when a failing access of the given
shape is fatal, per unicorn.h lines 114-122. -/
def eventErr : MemAccess → MemFailKind → uc_err
  | .read, .unmapped => .UC_ERR_READ_UNMAPPED
  | .write, .unmapped => .UC_ERR_WRITE_UNMAPPED
  | .fetch, .unmapped => .UC_ERR_FETCH_UNMAPPED
  | .read, .prot => .UC_ERR_READ_PROT
  | .write, .prot => .UC_ERR_WRITE_PROT
  | .fetch, .prot => .UC_ERR_FETCH_PROT

/-- A registered memory-event hook entry, spec section 3: the hook-type mask
it was registered for, an optional address-range filter `[first, last+1)`
given as a pair, and the boolean its callback returns (`uc_cb_eventmem_t`,
unicorn.h lines 214-215: true to continue, false to stop). -/
structure HookEntry where
  mask : Nat
  filter : Option (Nat × Nat)
  ret : Bool
  deriving DecidableEq, Repr

/-- Whether a hook entry matches a failing access of the given shape at the
given address: its mask has the event's bit set, and the address falls inside
its range filter when one is present (spec invariant (c)). -/
def HookEntry.matches (h : HookEntry) (a : MemAccess) (f : MemFailKind)
    (addr : Nat) : Bool :=
  h.mask &&& eventHookBit a f ≠ 0 &&
    match h.filter with
    | none => true
    | some (lo, hi) => lo ≤ addr && addr < hi

/-- Modelled from the spec: the memory-event dispatch code is not in src.
Spec sections 4.1 and 4.2: when an emulated access fails the address-space
check, every matching memory-event hook entry fires; if no entry fires, or
any fired entry returns false, the access is fatal and the engine records
the error kind of the event keyed to the faulting address (`some (err,
addr)`); if every fired entry returns true, execution continues (`none`). -/
def dispatchMemEvent (hooks : List HookEntry) (a : MemAccess) (f : MemFailKind)
    (addr : Nat) : Option (uc_err × Nat) :=
  let fired := hooks.filter (fun h => h.matches a f addr)
  if fired.isEmpty || fired.any (fun h => !h.ret) then some (eventErr a f, addr)
  else none

/-! The execution engine's block loop and the latched stop request
(spec sections 4.4 and 5). -/

/-- Modelled from the spec: the execution engine's loop is not in src.  The
program is abstracted as a list of basic blocks, each a list of
instructions; an instruction is represented by one boolean saying whether a
hook running at that instruction requests a stop (`uc_emu_stop`).  Section
4.4: the stop request only latches a flag, the current block completes, and
the loop observes the flag at the next block boundary.  The result is the
trace of executed instructions as (block index, instruction index) pairs,
with `idx` the index of the first remaining block and `stop` the latched
flag on entry. -/
def runBlocks (stop : Bool) (idx : Nat) (blocks : List (List Bool)) :
    List (Nat × Nat) :=
  match blocks with
  | [] => []
  | b :: rest =>
    if stop then []
    else
      ((List.range b.length).map fun j => (idx, j)) ++
        runBlocks (stop || b.any id) (idx + 1) rest

/-- The trace of an emulation run started with no stop request pending. -/
def runTrace (blocks : List (List Bool)) : List (Nat × Nat) :=
  runBlocks false 0 blocks

/-! The `uc_emu_start` stop-condition loop (spec section 4.4). -/

/-- Whether the `uc_emu_start` loop exits cleanly before the next unit:
spec section 4.4 step 3 checks, between units, whether the current address
equals `until`, whether a nonzero instruction budget is exhausted, and
whether a nonzero timeout has elapsed (time is measured cooperatively in
executed units, spec section 5). -/
def emuDone (untilAddr timeout count executed pc : Nat) : Bool :=
  pc == untilAddr ||
    (count != 0 && decide (count ≤ executed)) ||
    (timeout != 0 && decide (timeout ≤ executed))

/-- Modelled from the spec: the body of `uc_emu_start` is not in src
(unicorn.h lines 372-373 only declare it).  Spec section 4.4: the loop
checks the stop conditions first and exits cleanly with `UC_ERR_OK`;
otherwise it delegates one unit to the external decode backend (`step`,
taking the current address and machine state to the advanced address and
new state) and repeats.  `fuel` bounds how many units the emulated program
itself runs before finishing; exhausting it is the program finishing, which
also returns `UC_ERR_OK`.  The result is (error, units executed, final
address, final state). -/
def emuLoop {σ : Type} (step : Nat → σ → Nat × σ) (untilAddr timeout count : Nat) :
    Nat → Nat → Nat → σ → uc_err × Nat × Nat × σ
  | 0, executed, pc, s => (.UC_ERR_OK, executed, pc, s)
  | fuel + 1, executed, pc, s =>
    if emuDone untilAddr timeout count executed pc then (.UC_ERR_OK, executed, pc, s)
    else
      let r := step pc s
      emuLoop step untilAddr timeout count fuel (executed + 1) r.1 r.2

/-- Modelled from the spec: `uc_emu_start` enters the loop at `begin` with
zero units executed. -/
def uc_emu_start {σ : Type} (step : Nat → σ → Nat × σ) (s : σ)
    (begin untilAddr timeout count fuel : Nat) : uc_err × Nat × Nat × σ :=
  emuLoop step untilAddr timeout count fuel 0 begin s

/-! The register file facade (spec section 4.3). -/

/-- Modelled from the spec: the register storage behind `uc_reg_read` and
`uc_reg_write` is delegated to the architecture backend, which is not in
src.  `width` is the architecture's id domain: the exact byte width the
backend expects for a register id, `none` when the id is outside the
domain; `store` holds each register's bytes. -/
structure RegFile where
  width : Nat → Option Nat
  store : Nat → List Nat

/-- Modelled from the spec: the body of `uc_reg_write` is not in src
(unicorn.h lines 310-311 only declare it).  Spec section 4.3: an id outside
the architecture's domain fails with `UC_ERR_ARG`; a buffer whose size is
not the exact byte width the backend expects fails with `UC_ERR_ARG`;
otherwise the value is stored with no side effect beyond the register
store. -/
def uc_reg_write (rf : RegFile) (regid : Nat) (value : List Nat) :
    Except uc_err RegFile :=
  match rf.width regid with
  | none => .error .UC_ERR_ARG
  | some w =>
    if value.length = w then
      .ok { rf with store := fun i => if i = regid then value else rf.store i }
    else .error .UC_ERR_ARG

/-- Modelled from the spec: the body of `uc_reg_read` is not in src
(unicorn.h lines 323-324 only declare it).  Spec section 4.3: an id outside
the architecture's domain fails with `UC_ERR_ARG`; otherwise the register's
stored bytes are returned. -/
def uc_reg_read (rf : RegFile) (regid : Nat) : Except uc_err (List Nat) :=
  match rf.width regid with
  | none => .error .UC_ERR_ARG
  | some _ => .ok (rf.store regid)

/-- A concrete register file used to witness the round-trip theorem:
register id 0 is the only valid id, two bytes wide, initially zero. -/
def sampleRegFile : RegFile where
  width := fun i => if i = 0 then some 2 else none
  store := fun _ => [0, 0]

/-!  Theorems. -/

/-- C1: the error taxonomy is a flat enumeration checked by value: besides
the distinguished success value `UC_ERR_OK = 0`, it contains exactly one
pairwise-distinct code for each of the 19 failure kinds listed by the spec,
and no others. -/
theorem uc_err_taxonomy :
    uc_err.toNat .UC_ERR_OK = 0 ∧
    Function.Injective uc_err.toNat ∧
    (∀ e : uc_err, e.kindOf = none ↔ e = .UC_ERR_OK) ∧
    (∀ k : ErrKind, ∃ e : uc_err, e.kindOf = some k ∧
      ∀ e2 : uc_err, e2.kindOf = some k → e2 = e) := by
  refine ⟨rfl, by decide, by decide, by decide⟩

/-- C8: `UC_MAKE_VERSION major minor` is the combined encoding
`major * 2 ^ 8 + minor` for every major and minor, the version query returns
the header's version in that encoding, and the header version (major 0,
minor 9) encodes to 9. -/
theorem version_encoding :
    (∀ major minor : Nat, UC_MAKE_VERSION major minor = major * 2 ^ 8 + minor) ∧
    uc_version = UC_MAKE_VERSION UC_API_MAJOR UC_API_MINOR ∧
    uc_version = 9 := by
  refine ⟨fun major minor => ?_, rfl, rfl⟩
  simp [UC_MAKE_VERSION, Nat.shiftLeft_eq]

/-- C9: every `uc_hook_type` constant is a distinct power of two, each
aggregate mask defined by arithmetic addition equals the bitwise OR of its
constituent flags, and `UC_HOOK_MEM_INVALID` has exactly the six
unmapped/protected event bits (positions 4 through 9) set and no others. -/
theorem hook_type_bits :
    (∀ i : Nat, UC_HOOK_MEM_INVALID.testBit i = decide (4 ≤ i ∧ i ≤ 9)) ∧
    UC_HOOK_INTR = 2 ^ 0 ∧ UC_HOOK_INSN = 2 ^ 1 ∧ UC_HOOK_CODE = 2 ^ 2 ∧
    UC_HOOK_BLOCK = 2 ^ 3 ∧ UC_HOOK_MEM_READ_UNMAPPED = 2 ^ 4 ∧
    UC_HOOK_MEM_WRITE_UNMAPPED = 2 ^ 5 ∧ UC_HOOK_MEM_FETCH_UNMAPPED = 2 ^ 6 ∧
    UC_HOOK_MEM_READ_PROT = 2 ^ 7 ∧ UC_HOOK_MEM_WRITE_PROT = 2 ^ 8 ∧
    UC_HOOK_MEM_FETCH_PROT = 2 ^ 9 ∧ UC_HOOK_MEM_READ = 2 ^ 10 ∧
    UC_HOOK_MEM_WRITE = 2 ^ 11 ∧ UC_HOOK_MEM_FETCH = 2 ^ 12 ∧
    ([UC_HOOK_INTR, UC_HOOK_INSN, UC_HOOK_CODE, UC_HOOK_BLOCK,
      UC_HOOK_MEM_READ_UNMAPPED, UC_HOOK_MEM_WRITE_UNMAPPED,
      UC_HOOK_MEM_FETCH_UNMAPPED, UC_HOOK_MEM_READ_PROT,
      UC_HOOK_MEM_WRITE_PROT, UC_HOOK_MEM_FETCH_PROT, UC_HOOK_MEM_READ,
      UC_HOOK_MEM_WRITE, UC_HOOK_MEM_FETCH] : List Nat).Nodup ∧
    UC_HOOK_MEM_UNMAPPED =
      (UC_HOOK_MEM_READ_UNMAPPED ||| UC_HOOK_MEM_WRITE_UNMAPPED |||
        UC_HOOK_MEM_FETCH_UNMAPPED) ∧
    UC_HOOK_MEM_PROT =
      (UC_HOOK_MEM_READ_PROT ||| UC_HOOK_MEM_WRITE_PROT |||
        UC_HOOK_MEM_FETCH_PROT) ∧
    UC_HOOK_MEM_READ_INVALID =
      (UC_HOOK_MEM_READ_PROT ||| UC_HOOK_MEM_READ_UNMAPPED) ∧
    UC_HOOK_MEM_WRITE_INVALID =
      (UC_HOOK_MEM_WRITE_PROT ||| UC_HOOK_MEM_WRITE_UNMAPPED) ∧
    UC_HOOK_MEM_FETCH_INVALID =
      (UC_HOOK_MEM_FETCH_PROT ||| UC_HOOK_MEM_FETCH_UNMAPPED) ∧
    UC_HOOK_MEM_INVALID = (UC_HOOK_MEM_UNMAPPED ||| UC_HOOK_MEM_PROT) := by
  refine ⟨fun i => ?_, by decide⟩
  rcases Nat.lt_or_ge i 10 with h | h
  · interval_cases i <;> decide
  · have hlt : UC_HOOK_MEM_INVALID < 2 ^ i :=
      lt_of_lt_of_le (by decide : UC_HOOK_MEM_INVALID < 2 ^ 10)
        (Nat.pow_le_pow_right (by decide) h)
    rw [Nat.testBit_eq_false_of_lt hlt]
    have hni : ¬(4 ≤ i ∧ i ≤ 9) := by omega
    simp [hni]

/-- C10: mode constants are architecture-relative, not globally unique:
`UC_MODE_THUMB`, `UC_MODE_MICRO`, `UC_MODE_V9` and `UC_MODE_QPX` all equal
`2 ^ 4`; `UC_MODE_MCLASS` and `UC_MODE_MIPS3` equal `2 ^ 5`; `UC_MODE_V8`
and `UC_MODE_MIPS32R6` equal `2 ^ 6`; `UC_MODE_ARM` and
`UC_MODE_LITTLE_ENDIAN` equal 0; hence the valuation of mode names is not
injective and a numeric mode value alone does not determine the ISA
variant. -/
theorem mode_aliasing :
    UC_MODE_THUMB = UC_MODE_MICRO ∧ UC_MODE_MICRO = UC_MODE_V9 ∧
    UC_MODE_V9 = UC_MODE_QPX ∧ UC_MODE_QPX = 2 ^ 4 ∧
    UC_MODE_MCLASS = UC_MODE_MIPS3 ∧ UC_MODE_MIPS3 = 2 ^ 5 ∧
    UC_MODE_V8 = UC_MODE_MIPS32R6 ∧ UC_MODE_MIPS32R6 = 2 ^ 6 ∧
    UC_MODE_ARM = UC_MODE_LITTLE_ENDIAN ∧ UC_MODE_LITTLE_ENDIAN = 0 ∧
    ¬ Function.Injective ModeName.val := by
  refine ⟨rfl, rfl, rfl, by decide, rfl, by decide, rfl, by decide, rfl,
    rfl, ?_⟩
  intro hinj
  exact absurd
    (hinj (show ModeName.val .UC_MODE_THUMB = ModeName.val .UC_MODE_MICRO from
      rfl))
    (by decide)

/-- C2: `uc_mem_map` fails with `UC_ERR_ARG` unless the base address is
page-aligned, the size is a positive multiple of the page size, and the
permissions are a subset of read/write/execute; it fails with the
map-conflict error `UC_ERR_MAP` when the requested range intersects an
existing region, fails with `UC_ERR_NOMEM` when backing storage cannot be
allocated, and on success inserts the new region. -/
theorem uc_mem_map_spec (regions : List MemRegion) (address size perms : Nat)
    (allocOk : Bool) :
    (¬(address % pageSize = 0 ∧ 0 < size ∧ size % pageSize = 0 ∧
        perms &&& UC_PROT_ALL = perms) →
      uc_mem_map regions address size perms allocOk = .error .UC_ERR_ARG) ∧
    (address % pageSize = 0 → 0 < size → size % pageSize = 0 →
      perms &&& UC_PROT_ALL = perms →
      regions.any (fun r => r.overlaps address size) = true →
      uc_mem_map regions address size perms allocOk = .error .UC_ERR_MAP) ∧
    (address % pageSize = 0 → 0 < size → size % pageSize = 0 →
      perms &&& UC_PROT_ALL = perms →
      regions.any (fun r => r.overlaps address size) = false →
      allocOk = false →
      uc_mem_map regions address size perms allocOk = .error .UC_ERR_NOMEM) ∧
    (address % pageSize = 0 → 0 < size → size % pageSize = 0 →
      perms &&& UC_PROT_ALL = perms →
      regions.any (fun r => r.overlaps address size) = false →
      allocOk = true →
      uc_mem_map regions address size perms allocOk =
        .ok ({ base := address, size := size, perms := perms } :: regions)) := by
  refine ⟨fun hbad => ?_, fun h1 h2 h3 h4 hov => ?_,
    fun h1 h2 h3 h4 hov ha => ?_, fun h1 h2 h3 h4 hov ha => ?_⟩ <;>
    · simp only [uc_mem_map]
      split_ifs with c1 c2 c3 c4 c5 c6 <;>
        first
          | rfl
          | (exfalso; simp_all [Nat.pos_iff_ne_zero])

/-- Witness for C2: mapping 4KB at address 0 with all permissions into an
empty address space succeeds and inserts the region. -/
theorem uc_mem_map_spec_witness :
    uc_mem_map [] 0 4096 7 true =
      .ok [{ base := 0, size := 4096, perms := 7 }] :=
  (uc_mem_map_spec [] 0 4096 7 true).2.2.2 rfl (by decide) rfl rfl rfl rfl

/-- C3: for an emulated access that fails the address-space check, all
matching memory-event hook entries fire and the aggregate of their boolean
returns determines continuation: if no matching hook exists or any fired
entry returns false, the access is fatal and the engine records the
matching error kind keyed to the faulting address; if every fired entry
returns true, execution continues. -/
theorem dispatchMemEvent_spec (hooks : List HookEntry) (a : MemAccess)
    (f : MemFailKind) (addr : Nat) :
    ((hooks.filter (fun h => h.matches a f addr) = [] ∨
        ∃ h ∈ hooks.filter (fun h => h.matches a f addr), h.ret = false) →
      dispatchMemEvent hooks a f addr = some (eventErr a f, addr)) ∧
    (hooks.filter (fun h => h.matches a f addr) ≠ [] →
      (∀ h ∈ hooks.filter (fun h => h.matches a f addr), h.ret = true) →
      dispatchMemEvent hooks a f addr = none) := by
  constructor
  · intro h
    simp only [dispatchMemEvent]
    rcases h with h | ⟨x, hx, hret⟩
    · simp [h]
    · have hany : (hooks.filter (fun h => h.matches a f addr)).any
          (fun h => !h.ret) = true := by
        rw [List.any_eq_true]
        exact ⟨x, hx, by simp [hret]⟩
      simp [hany]
  · intro hne hall
    simp only [dispatchMemEvent]
    have h1 : (hooks.filter (fun h => h.matches a f addr)).isEmpty = false := by
      simpa [List.isEmpty_iff] using hne
    have h2 : (hooks.filter (fun h => h.matches a f addr)).any
        (fun h => !h.ret) = false := by
      rw [List.any_eq_false]
      intro x hx
      simp [hall x hx]
    simp [h1, h2]

/-- Witness for C3: with no hooks registered, a read of unmapped memory at
address 4096 is fatal and records `UC_ERR_READ_UNMAPPED` keyed to 4096. -/
theorem dispatchMemEvent_spec_witness :
    dispatchMemEvent [] .read .unmapped 4096 =
      some (.UC_ERR_READ_UNMAPPED, 4096) :=
  (dispatchMemEvent_spec [] .read .unmapped 4096).1 (Or.inl rfl)

/-- A run entered with the stop flag latched executes nothing. -/
theorem runBlocks_of_stop (idx : Nat) (blocks : List (List Bool)) :
    runBlocks true idx blocks = [] := by
  cases blocks <;> simp [runBlocks]

/-- Every trace entry's block index is at least the index of the first
remaining block. -/
theorem runBlocks_fst_ge {stop : Bool} {idx : Nat} {blocks : List (List Bool)}
    {p : Nat × Nat} (hp : p ∈ runBlocks stop idx blocks) : idx ≤ p.1 := by
  induction blocks generalizing stop idx with
  | nil => simp [runBlocks] at hp
  | cons b rest ih =>
    cases stop with
    | true => rw [runBlocks_of_stop] at hp; simp at hp
    | false =>
      simp only [runBlocks, Bool.false_eq_true, if_false, Bool.false_or, List.mem_append,
        List.mem_map, List.mem_range] at hp
      rcases hp with ⟨j, _, rfl⟩ | hp
      · exact Nat.le_refl idx
      · exact Nat.le_trans (Nat.le_succ idx) (ih hp)

/-- If block `n` of the remaining program raises a stop request, no
instruction of block `n + 1` appears in the trace. -/
theorem runBlocks_no_next_block {stop : Bool} {idx n : Nat}
    {blocks : List (List Bool)} {b : List Bool} (hb : blocks[n]? = some b)
    (hstop : b.any id = true) :
    ∀ j, (idx + n + 1, j) ∉ runBlocks stop idx blocks := by
  induction blocks generalizing stop idx n with
  | nil => simp at hb
  | cons b0 rest ih =>
    intro j hj
    cases stop with
    | true => rw [runBlocks_of_stop] at hj; simp at hj
    | false =>
      simp only [runBlocks, Bool.false_eq_true, if_false, Bool.false_or, List.mem_append,
        List.mem_map, List.mem_range] at hj
      rcases hj with ⟨j2, _, hj2⟩ | hj
      · have : idx = idx + n + 1 := congrArg Prod.fst hj2
        omega
      · cases n with
        | zero =>
          have hbb : b0 = b := by simpa using hb
          subst hbb
          rw [hstop, runBlocks_of_stop] at hj
          simp at hj
        | succ m =>
          have hb2 : rest[m]? = some b := by simpa using hb
          have harith : idx + (m + 1) + 1 = (idx + 1) + m + 1 := by omega
          rw [harith] at hj
          exact ih hb2 j hj

/-- If any instruction of block `n` of the remaining program appears in the
trace, the whole of block `n` appears in the trace. -/
theorem runBlocks_block_completes {stop : Bool} {idx n : Nat}
    {blocks : List (List Bool)} {b : List Bool} (hb : blocks[n]? = some b)
    (hentered : ∃ j, (idx + n, j) ∈ runBlocks stop idx blocks) :
    ∀ j, j < b.length → (idx + n, j) ∈ runBlocks stop idx blocks := by
  induction blocks generalizing stop idx n with
  | nil => simp at hb
  | cons b0 rest ih =>
    obtain ⟨j0, hj0⟩ := hentered
    intro j hjlen
    cases stop with
    | true => rw [runBlocks_of_stop] at hj0; simp at hj0
    | false =>
      simp only [runBlocks, Bool.false_eq_true, if_false, Bool.false_or, List.mem_append,
        List.mem_map, List.mem_range] at hj0 ⊢
      cases n with
      | zero =>
        have hbb : b0 = b := by simpa using hb
        subst hbb
        exact Or.inl ⟨j, by simpa using hjlen, by simp⟩
      | succ m =>
        have hb2 : rest[m]? = some b := by simpa using hb
        have hj0r : (idx + (m + 1), j0) ∈
            runBlocks (b0.any id) (idx + 1) rest := by
          rcases hj0 with ⟨j2, _, hj2⟩ | hj0
          · have : idx = idx + (m + 1) := congrArg Prod.fst hj2
            omega
          · exact hj0
        have harith : idx + (m + 1) = (idx + 1) + m := by omega
        rw [harith] at hj0r
        have := ih hb2 ⟨j0, hj0r⟩ j hjlen
        rw [harith]
        exact Or.inr this

/-- C4: a stop request raised by a hook while the engine executes block `N`
is latched and honored at the end of the block: if block `N` is entered and
one of its instructions raises a stop request, the remainder of block `N`
still executes, and no instruction of block `N + 1` executes. -/
theorem stop_latched_at_block_boundary (blocks : List (List Bool)) (N : Nat)
    (b : List Bool) (hb : blocks[N]? = some b) (hstop : b.any id = true)
    (hentered : ∃ j, (N, j) ∈ runTrace blocks) :
    (∀ j, j < b.length → (N, j) ∈ runTrace blocks) ∧
    (∀ j, (N + 1, j) ∉ runTrace blocks) := by
  constructor
  · have := @runBlocks_block_completes false 0 N blocks b hb
      (by simpa [runTrace] using hentered)
    simpa [runTrace] using this
  · intro j
    have := @runBlocks_no_next_block false 0 N blocks b hb hstop j
    simpa [runTrace] using this

/-- Witness for C4: in the two-block program whose first block's only
instruction raises a stop request, block 0 runs to completion and nothing
of block 1 runs. -/
theorem stop_latched_at_block_boundary_witness :
    (∀ j, j < 1 → (0, j) ∈ runTrace [[true], [false]]) ∧
    (∀ j, (0 + 1, j) ∉ runTrace [[true], [false]]) :=
  stop_latched_at_block_boundary [[true], [false]] 0 [true] rfl rfl
    ⟨0, by decide⟩

/-- C5: starting emulation with `begin = until` (timeout 0, count 0)
returns `UC_ERR_OK` immediately, with zero units executed, the address
still at `begin`, and the machine state unchanged, for every backend and
every amount of remaining program. -/
theorem emu_start_until_eq_begin {σ : Type} (step : Nat → σ → Nat × σ)
    (s : σ) (X fuel : Nat) :
    uc_emu_start step s X X 0 0 fuel = (.UC_ERR_OK, 0, X, s) := by
  cases fuel with
  | zero => rfl
  | succ n => simp [uc_emu_start, emuLoop, emuDone]

/-- C6: for a register id inside the architecture's domain and a value of
the exact byte width the backend expects, a write followed by a read
succeeds and returns the written value, with no side effect beyond the
register store (the id domain and every other register are unchanged); an
id outside the domain makes both operations fail with `UC_ERR_ARG`. -/
theorem reg_write_read_roundtrip (rf : RegFile) (regid : Nat) (v : List Nat)
    (w : Nat) :
    (rf.width regid = some w → v.length = w →
      ∃ rf2, uc_reg_write rf regid v = .ok rf2 ∧
        uc_reg_read rf2 regid = .ok v ∧
        rf2.width = rf.width ∧
        ∀ j, j ≠ regid → rf2.store j = rf.store j) ∧
    (rf.width regid = none →
      uc_reg_write rf regid v = .error .UC_ERR_ARG ∧
      uc_reg_read rf regid = .error .UC_ERR_ARG) := by
  constructor
  · intro hw hlen
    refine ⟨{ rf with store := fun i => if i = regid then v else rf.store i },
      ?_, ?_, rfl, ?_⟩
    · simp [uc_reg_write, hw, hlen]
    · simp [uc_reg_read, hw]
    · intro j hj
      simp [hj]
  · intro hw
    exact ⟨by simp [uc_reg_write, hw], by simp [uc_reg_read, hw]⟩

/-- Witness for C6: on the sample register file, writing the two bytes
`[7, 9]` to register 0 and reading them back returns `[7, 9]`, leaving the
id domain and every other register untouched. -/
theorem reg_write_read_roundtrip_witness :
    ∃ rf2, uc_reg_write sampleRegFile 0 [7, 9] = .ok rf2 ∧
      uc_reg_read rf2 0 = .ok [7, 9] ∧
      rf2.width = sampleRegFile.width ∧
      ∀ j, j ≠ 0 → rf2.store j = sampleRegFile.store j :=
  (reg_write_read_roundtrip sampleRegFile 0 [7, 9] 2).1 rfl rfl

end Unicorn
